import Mathlib

/-!
# Verification of the QueryCraft SQL agent backend

A shallow embedding of the Python backend of the `query-draft` repository
(FastAPI + LangGraph agent that retrieves schema context, generates SQL with
an LLM, validates it, and executes it against Postgres), together with
theorems settling the frozen claims about its specification.

Modelling conventions:
* Python strings are `String` / `List Char`; machine-level details such as
  Unicode case folding and the Unicode extensions of `\w`/`\s` in `re` are
  modelled over ASCII, which covers every identifier and keyword the code
  manipulates.
* Regular-expression searches (`re.search`, `re.finditer`, `re.sub`) are
  embedded as explicit left-to-right scanners that translate the concrete
  patterns of the source (`\b`, `\s+`, `\d+`, greedy repetition,
  non-overlapping continuation after each match).
* `sqlparse.split` is embedded as its statement-splitter automaton:
  statements are cut at top-level `;` with subsequent whitespace consumed
  into the preceding statement, quoted regions are opaque, and each yielded
  statement is whitespace-stripped.
* External effects (the Qdrant index, the Ollama LLM, the database) are
  oracle parameters; an uncaught Python exception inside a step is an
  `Except.error` of the whole run, while source-level `try/except` blocks
  produce `Except.ok` deltas.
-/

set_option maxRecDepth 10000

/-! ## Character classes (ASCII model of Python `re` classes and `str` methods) -/

/-- ASCII model of the regex word class `\w` = `[A-Za-z0-9_]`. -/
def isWordCh (c : Char) : Bool :=
  (('a' ≤ c && c ≤ 'z') || ('A' ≤ c && c ≤ 'Z') || ('0' ≤ c && c ≤ '9') || c = '_')

/-- ASCII model of the regex whitespace class `\s` and of the default
character set of Python `str.strip`. -/
def isWsCh (c : Char) : Bool :=
  (c = ' ' || c = Char.ofNat 9 || c = Char.ofNat 10 || c = Char.ofNat 13
    || c = Char.ofNat 11 || c = Char.ofNat 12)

/-- Regex digit class `\d` (ASCII). -/
def isDigitCh (c : Char) : Bool := ('0' ≤ c && c ≤ '9')

/-- ASCII start of a regex identifier `[a-zA-Z_]`. -/
def isIdentStartCh (c : Char) : Bool :=
  (('a' ≤ c && c ≤ 'z') || ('A' ≤ c && c ≤ 'Z') || c = '_')

/-- Characters allowed after the first one in `([a-zA-Z_][\w\.]*)`. -/
def isIdentContCh (c : Char) : Bool := (isWordCh c || c = '.')

/-- ASCII model of `str.lower` on a character. -/
def lowerCh (c : Char) : Char :=
  if 'A' ≤ c && c ≤ 'Z' then Char.ofNat (c.toNat + 32) else c

/-- ASCII model of `str.lower`. -/
def lowerL (l : List Char) : List Char := l.map lowerCh

/-- Case-insensitive character comparison, as under `re.IGNORECASE` (ASCII). -/
def ciEqCh (a b : Char) : Bool := lowerCh a = lowerCh b

/-- Case-insensitive prefix test: does `l` start with the word `w`? -/
def ciPrefix : List Char → List Char → Bool
  | [], _ => true
  | _ :: _, [] => false
  | w :: ws, c :: cs => ciEqCh w c && ciPrefix ws cs

/-- Python `str.strip()` (whitespace from both ends). -/
def pyStrip (l : List Char) : List Char :=
  ((l.dropWhile isWsCh).reverse.dropWhile isWsCh).reverse

/-- Python `str.rstrip(";")`: remove all trailing semicolons. -/
def rstripSemis (l : List Char) : List Char :=
  (l.reverse.dropWhile (fun c => c = ';')).reverse

/-- Value of a (non-empty) ASCII digit string, as Python `int`. -/
def digitsToNat (l : List Char) : Nat :=
  l.foldl (fun acc c => acc * 10 + (c.toNat - 48)) 0

/-! ## Whole-word search: `re.search(rf"\b{kw}\b", lowered)`

All forbidden keywords are purely alphabetic, so `\b` holds exactly when the
adjacent character (if any) is not a word character. -/

/-- Does the word `kw` occur at the head of `l` with a right word boundary? -/
def wordAtHead (kw l : List Char) : Bool :=
  kw.isPrefixOf l && (match l.drop kw.length with
    | [] => true
    | c :: _ => !isWordCh c)

/-- Scanner for `re.search(rf"\b{kw}\b", l)`: `prevW` records whether the
character just before the current suffix is a word character (false at the
start of the string). -/
def hasWordAux (kw : List Char) : Bool → List Char → Bool
  | _, [] => false
  | prevW, c :: rest =>
    (!prevW && wordAtHead kw (c :: rest)) || hasWordAux kw (isWordCh c) rest

/-- `re.search(rf"\b{kw}\b", l)` succeeds (for an alphabetic keyword `kw`). -/
def hasWord (kw l : List Char) : Bool := hasWordAux kw false l

/-- Declarative whole-word containment: `l = a ++ kw ++ b` with non-word
characters (or string ends) on both sides.  This is the specification-level
reading of "contains the keyword as a whole word (case-insensitive)" once
`l` has been lowered. -/
def WholeWordIn (kw l : List Char) : Prop :=
  ∃ a b, l = a ++ kw ++ b ∧
    (∀ c, a.getLast? = some c → isWordCh c = false) ∧
    (∀ c, b.head? = some c → isWordCh c = false)

theorem wordAtHead_iff (kw l : List Char) :
    wordAtHead kw l = true ↔
      ∃ b, l = kw ++ b ∧ (∀ c, b.head? = some c → isWordCh c = false) := by
  unfold wordAtHead
  constructor
  · intro h
    simp only [Bool.and_eq_true] at h
    obtain ⟨hpre, hbound⟩ := h
    obtain ⟨b, hb⟩ := List.isPrefixOf_iff_prefix.mp hpre
    refine ⟨b, hb.symm, ?_⟩
    intro c hc
    have hdrop : l.drop kw.length = b := by
      subst hb; simp
    rw [hdrop] at hbound
    cases b with
    | nil => simp at hc
    | cons x xs =>
      simp at hc
      subst hc
      simpa using hbound
  · rintro ⟨b, rfl, hb⟩
    have hpre : kw.isPrefixOf (kw ++ b) = true :=
      List.isPrefixOf_iff_prefix.mpr ⟨b, rfl⟩
    simp only [hpre, Bool.true_and]
    have hdrop : (kw ++ b).drop kw.length = b := by simp
    rw [hdrop]
    cases b with
    | nil => simp
    | cons x xs => simpa using hb x rfl

theorem hasWordAux_sound (kw : List Char) (_hkw : kw ≠ []) :
    ∀ (l : List Char) (a : List Char) (prevW : Bool),
      (prevW = match a.getLast? with | some c => isWordCh c | none => false) →
      hasWordAux kw prevW l = true → WholeWordIn kw (a ++ l) := by
  intro l
  induction l with
  | nil => intro a prevW _ h; simp [hasWordAux] at h
  | cons c rest ih =>
    intro a prevW hinv h
    simp only [hasWordAux, Bool.or_eq_true, Bool.and_eq_true] at h
    rcases h with ⟨hnp, hhead⟩ | htail
    · obtain ⟨b, hb, hbound⟩ := (wordAtHead_iff kw (c :: rest)).mp hhead
      refine ⟨a, b, by rw [hb, List.append_assoc], ?_, hbound⟩
      intro ch hch
      have : prevW = isWordCh ch := by rw [hinv, hch]
      simp only [Bool.not_eq_true'] at hnp
      rw [← this, hnp]
    · have := ih (a ++ [c]) (isWordCh c) (by simp) htail
      simpa using this

theorem hasWordAux_complete (kw : List Char) (hkw : kw ≠ []) :
    ∀ (a b : List Char) (prevW : Bool),
      (a = [] → prevW = false) →
      (∀ c, a.getLast? = some c → isWordCh c = false) →
      (∀ c, b.head? = some c → isWordCh c = false) →
      hasWordAux kw prevW (a ++ kw ++ b) = true := by
  intro a
  induction a with
  | nil =>
    intro b prevW hnil ha hb
    have hp : prevW = false := hnil rfl
    subst hp
    cases kw with
    | nil => exact absurd rfl hkw
    | cons k ks =>
      simp only [List.nil_append, List.cons_append, hasWordAux, Bool.or_eq_true,
        Bool.and_eq_true]
      left
      refine ⟨rfl, ?_⟩
      rw [wordAtHead_iff]
      exact ⟨b, by simp, hb⟩
  | cons x xs ih =>
    intro b prevW _ ha hb
    simp only [List.cons_append, hasWordAux, Bool.or_eq_true, Bool.and_eq_true]
    right
    apply ih b (isWordCh x)
    · intro hxs
      subst hxs
      have := ha x (by simp)
      simpa using this
    · intro c hc
      apply ha
      cases xs with
      | nil => simp at hc
      | cons y ys => simpa using hc
    · exact hb

theorem hasWord_iff_wholeWordIn (kw l : List Char) (hkw : kw ≠ []) :
    hasWord kw l = true ↔ WholeWordIn kw l := by
  constructor
  · intro h
    have := hasWordAux_sound kw hkw l [] false (by simp) h
    simpa using this
  · rintro ⟨a, b, rfl, ha, hb⟩
    exact hasWordAux_complete kw hkw a b false (fun _ => rfl) ha hb

/-! ## Validator constants (`sql_validate_query.py`) -/

/-- `ALLOWED_TABLES` from `sql_validate_query.py` (a Python set of strings;
membership there is exact, case-sensitive string equality). -/
def ALLOWED_TABLES : List String :=
  ["customers", "products", "orders", "CURRENT_DATE"]

/-- `FORBIDDEN_KEYWORDS` from `sql_validate_query.py`, in source listing
order.  (The source uses a Python `set`, whose iteration order is
implementation-defined; the listing order is used here.  Every claim that
depends on the reported keyword involves a query containing exactly one
forbidden keyword, for which the order is irrelevant.) -/
def FORBIDDEN_KEYWORDS : List String :=
  ["insert", "update", "delete", "drop", "truncate", "alter", "create",
   "grant", "revoke", "call", "execute"]

/-- `MAX_LIMIT = int(os.getenv("SQL_MAX_LIMIT", "100"))` with the default
environment. -/
def MAX_LIMIT : Nat := 100

/-- The literal word `from` of the table pattern. -/
def fromW : List Char := "from".data

/-- The literal word `join` of the table pattern. -/
def joinW : List Char := "join".data

/-- The literal word `limit` of the limit pattern. -/
def limitW : List Char := "limit".data

/-- The literal word `select` of the leading-token check. -/
def selectW : List Char := "select".data

/-- The `non-SELECT statement` result of `_contains_forbidden`. -/
def msgNonSelect : String := "non-SELECT statement"

/-- The keyword loop of `_contains_forbidden`: return the first keyword
whose whole-word search succeeds in the lowered SQL. -/
def findForbiddenKw (lowered : List Char) : Option String :=
  FORBIDDEN_KEYWORDS.find? (fun kw => hasWord kw.data lowered)

/-- First token of the statement as used by the `tokens[0]` check of
`_contains_forbidden`: skip leading whitespace, then take the maximal run
of word characters.  `sqlparse` yields the keyword `select` (with a
non-`None` ttype) exactly when this word is `select` (case-insensitively);
any other lead token — another word, punctuation, a parenthesized group, an
identifier — fails the `tokens[0].ttype is None or value.lower() !=
"select"` test. -/
def firstWord (l : List Char) : List Char :=
  (l.dropWhile isWsCh).takeWhile isWordCh

/-- `_contains_forbidden(sql, FORBIDDEN_KEYWORDS)` from `utils.py`:
first the keyword loop over the lowered SQL, then the leading-token
SELECT check via `sqlparse.parse`. -/
def contains_forbidden (sql : List Char) : Option String :=
  match findForbiddenKw (lowerL sql) with
  | some kw => some kw
  | none =>
    if lowerL (firstWord sql) = selectW then none
    else some msgNonSelect

/-! ## `sqlparse.split` (statement splitter automaton)

`sqlparse.split` cuts statements at top-level `;`.  After a `;` the
splitter *consumes* following whitespace into the same statement and opens
a new statement at the next non-whitespace token.  Single- and
double-quoted regions are opaque.  Each yielded statement is
whitespace-stripped; a final buffer is yielded only if non-empty. -/

/-- One traversal step state for the splitter: `inS` and `inD` mean inside
a single-quoted (resp. double-quoted) region, `consumeWs` means a
top-level `;` was seen and whitespace is still being consumed into the
current statement. -/
structure SplitSt where
  inS : Bool
  inD : Bool
  consumeWs : Bool
deriving DecidableEq

/-- The splitter automaton.  `buf` is the reversed current statement. -/
def splitAux : SplitSt → List Char → List Char → List (List Char)
  | _, buf, [] => if buf = [] then [] else [pyStrip buf.reverse]
  | st, buf, c :: rest =>
    if st.inS then
      splitAux { st with inS := !(c = '\'') } (c :: buf) rest
    else if st.inD then
      splitAux { st with inD := !(c = '"') } (c :: buf) rest
    else if st.consumeWs then
      if isWsCh c then
        splitAux st (c :: buf) rest
      else
        pyStrip buf.reverse ::
          splitAux { inS := (c = '\''), inD := (c = '"'),
                     consumeWs := (c = ';') } [c] rest
    else
      splitAux { inS := (c = '\''), inD := (c = '"'), consumeWs := (c = ';') }
        (c :: buf) rest

/-- `sqlparse.split(sql)` (as a list of stripped statement strings). -/
def sqlparseSplit (sql : List Char) : List (List Char) :=
  splitAux ⟨false, false, false⟩ [] sql

/-! ## `_extract_tables` (`re.finditer(r"\b(?:from|join)\s+([a-zA-Z_][\w\.]*)", sql, re.IGNORECASE)`) -/

/-- Try the table pattern at the head of `l` (`prevW` = the preceding
character is a word character, violating `\b`).  On success return the
captured identifier and the remaining input after the match. -/
def tryTableMatch (prevW : Bool) (l : List Char) : Option (List Char × List Char) :=
  if prevW then none
  else if ciPrefix fromW l || ciPrefix joinW l then
    if (l.drop 4).takeWhile isWsCh = [] then none
    else
      match (l.drop 4).dropWhile isWsCh with
      | [] => none
      | c :: cs =>
        if isIdentStartCh c then
          some (c :: cs.takeWhile isIdentContCh, cs.dropWhile isIdentContCh)
        else none
  else none

theorem tryTableMatch_shrink (prevW : Bool) (l : List Char) (cap rest : List Char)
    (h : tryTableMatch prevW l = some (cap, rest)) : rest.length < l.length := by
  unfold tryTableMatch at h
  split at h
  · exact absurd h (by simp)
  · split at h
    · split at h
      · exact absurd h (by simp)
      · split at h
        · exact absurd h (by simp)
        · rename_i c cs hafter
          split at h
          · simp only [Option.some.injEq, Prod.mk.injEq] at h
            obtain ⟨-, hrest⟩ := h
            subst hrest
            have h1 : (cs.dropWhile isIdentContCh).length ≤ cs.length :=
              (List.IsSuffix.sublist (List.dropWhile_suffix _)).length_le
            have h2 : (c :: cs).length ≤ (l.drop 4).length := by
              rw [← hafter]
              exact (List.IsSuffix.sublist (List.dropWhile_suffix _)).length_le
            have h3 : (l.drop 4).length ≤ l.length := by
              simp [List.length_drop]
            simp only [List.length_cons] at h2
            omega
          · exact absurd h (by simp)
    · exact absurd h (by simp)

/-- `python .split(".")[-1]`: the segment after the last dot. -/
def lastDotSegment (l : List Char) : List Char :=
  ((l.reverse.takeWhile (fun c => !(c = '.'))).reverse)

/-- `python .strip('"')`: remove double quotes from both ends (a no-op on
captures of this pattern, whose character class excludes `"`). -/
def stripDQuotes (l : List Char) : List Char :=
  ((l.dropWhile (fun c => c = '"')).reverse.dropWhile (fun c => c = '"')).reverse

/-- The `finditer` loop of `_extract_tables`, with explicit fuel (each
match consumes at least one character, so `fuel = l.length` suffices). -/
def extractAux : Nat → Bool → List Char → List (List Char)
  | 0, _, _ => []
  | _ + 1, _, [] => []
  | fuel + 1, prevW, c :: rest =>
    match tryTableMatch prevW (c :: rest) with
    | some (cap, after) =>
      stripDQuotes (lastDotSegment cap) ::
        extractAux fuel (match cap.getLast? with
          | some lc => isIdentContCh lc && isWordCh lc
          | none => false) after
    | none => extractAux fuel (isWordCh c) rest

/-- `_extract_tables(sql)` from `utils.py`. -/
def extract_tables (sql : List Char) : List (List Char) :=
  extractAux sql.length false sql


/-! ## `_inject_safe_limit` (`re.search`/`re.sub` of `\blimit\b\s+(\d+)`)

The trailing `\b` of `\blimit\b` is subsumed by the mandatory `\s+` that
follows: a whitespace character is never a word character. -/

/-- Try the limit pattern at the head of `l`; on success return the
captured number and the remainder of the input after the match (the match
extends over the greedy `\d+`). -/
def limitTryAt (l : List Char) : Option (Nat × List Char) :=
  if ciPrefix limitW l then
    if (l.drop 5).takeWhile isWsCh = [] then none
    else
      match (l.drop 5).dropWhile isWsCh with
      | [] => none
      | c :: cs =>
        if isDigitCh c then
          some (digitsToNat (c :: cs.takeWhile isDigitCh), cs.dropWhile isDigitCh)
        else none
  else none

/-- `re.search(r"\blimit\b\s+(\d+)", sql, re.IGNORECASE)`: value of the
first match, scanning left to right with the word-boundary state. -/
def findLimitAux : Bool → List Char → Option Nat
  | _, [] => none
  | prevW, c :: rest =>
    match (if prevW then none else limitTryAt (c :: rest)) with
    | some (v, _) => some v
    | none => findLimitAux (isWordCh c) rest

/-- The captured row count of the first `\blimit\b\s+(\d+)` match, if any. -/
def findLimit (l : List Char) : Option Nat := findLimitAux false l

/-- `re.sub(r"\blimit\b\s+\d+", f"LIMIT {max_limit}", sql, re.IGNORECASE)`:
replace every non-overlapping match, scanning left to right.  After a match
the scan resumes on the original text; the character before the resumption
point is the final digit of the replaced match, hence a word character. -/
def subAllAux (maxRepl : List Char) : Nat → Bool → List Char → List Char
  | 0, _, l => l
  | _ + 1, _, [] => []
  | fuel + 1, prevW, c :: rest =>
    match (if prevW then none else limitTryAt (c :: rest)) with
    | some (_, after) => maxRepl ++ subAllAux maxRepl fuel true after
    | none => c :: subAllAux maxRepl fuel (isWordCh c) rest

/-- All-occurrence rewrite of limit clauses to `LIMIT <max>`. -/
def subAllLimits (l : List Char) (maxLimit : Nat) : List Char :=
  subAllAux ("LIMIT " ++ Nat.repr maxLimit).data l.length false l

/-- `_inject_safe_limit(sql, max_limit)` from `utils.py`. -/
def inject_safe_limit (l : List Char) (maxLimit : Nat) : List Char :=
  match findLimit l with
  | some current =>
    if current > maxLimit then subAllLimits l maxLimit else l
  | none => rstripSemis l ++ (" LIMIT " ++ Nat.repr maxLimit).data

/-! ### Positional specification of the limit search -/

/-- Word-boundary test before position `p`, given that the character
preceding the whole list is a word character iff `prevW`. -/
def limitBound (prevW : Bool) (l : List Char) : Nat → Bool
  | 0 => !prevW
  | q + 1 =>
    match l[q]? with
    | some c => !isWordCh c
    | none => false

/-- Value captured by the limit pattern at position `p`, or `none` when the
pattern does not match there. -/
def limitValAt (prevW : Bool) (l : List Char) (p : Nat) : Option Nat :=
  if limitBound prevW l p then (limitTryAt (l.drop p)).map Prod.fst else none

/-- Declarative, position-indexed reading of
`re.search(r"\blimit\b\s+(\d+)", l, re.IGNORECASE)`: the pattern matches at
position `p` with captured value `v`. -/
def LimitMatchAt (l : List Char) (p v : Nat) : Prop :=
  limitValAt false l p = some v

instance (l : List Char) (p v : Nat) : Decidable (LimitMatchAt l p v) := by
  unfold LimitMatchAt; infer_instance

theorem limitTryAt_nil : limitTryAt [] = none := by
  simp [limitTryAt, ciPrefix]

theorem limitValAt_nil (prevW : Bool) (p : Nat) : limitValAt prevW [] p = none := by
  unfold limitValAt
  have : ([] : List Char).drop p = [] := by simp
  rw [this, limitTryAt_nil]
  simp

theorem limitValAt_cons_succ (prevW : Bool) (c : Char) (rest : List Char) (p : Nat) :
    limitValAt prevW (c :: rest) (p + 1) = limitValAt (isWordCh c) rest p := by
  cases p with
  | zero => simp [limitValAt, limitBound]
  | succ q => simp [limitValAt, limitBound]

theorem limitValAt_cons_zero (prevW : Bool) (c : Char) (rest : List Char) :
    limitValAt prevW (c :: rest) 0 =
      if prevW then none else (limitTryAt (c :: rest)).map Prod.fst := by
  cases prevW <;> simp [limitValAt, limitBound]

theorem findLimitAux_eq_none_iff (l : List Char) :
    ∀ prevW, findLimitAux prevW l = none ↔ ∀ p, limitValAt prevW l p = none := by
  induction l with
  | nil =>
    intro prevW
    simp [findLimitAux, limitValAt_nil]
  | cons c rest ih =>
    intro prevW
    simp only [findLimitAux]
    rcases hhead : (if prevW then none else limitTryAt (c :: rest)) with - | ⟨v₀, r₀⟩
    · simp only [ih]
      constructor
      · intro h p
        cases p with
        | zero =>
          rw [limitValAt_cons_zero]
          cases hw : prevW with
          | true => simp
          | false =>
            subst hw
            simp only [if_neg Bool.false_ne_true] at hhead
            simp [hhead]
        | succ q => rw [limitValAt_cons_succ]; exact h q
      · intro h p
        have := h (p + 1)
        rwa [limitValAt_cons_succ] at this
    · constructor
      · intro h; exact absurd h (by simp)
      · intro h
        have h0 := h 0
        rw [limitValAt_cons_zero] at h0
        cases hw : prevW with
        | true => subst hw; simp at hhead
        | false =>
          subst hw
          simp only [if_neg Bool.false_ne_true] at hhead h0
          rw [hhead] at h0
          simp at h0

theorem findLimitAux_eq_some_iff (l : List Char) :
    ∀ prevW v, findLimitAux prevW l = some v ↔
      ∃ p, limitValAt prevW l p = some v ∧ ∀ q < p, limitValAt prevW l q = none := by
  induction l with
  | nil =>
    intro prevW v
    simp [findLimitAux, limitValAt_nil]
  | cons c rest ih =>
    intro prevW v
    simp only [findLimitAux]
    rcases hhead : (if prevW then none else limitTryAt (c :: rest)) with - | ⟨v₀, r₀⟩
    · have hzero : limitValAt prevW (c :: rest) 0 = none := by
        rw [limitValAt_cons_zero]
        cases hw : prevW with
        | true => simp
        | false =>
          subst hw
          simp only [if_neg Bool.false_ne_true] at hhead
          simp [hhead]
      simp only [ih]
      constructor
      · rintro ⟨p, hp, hmin⟩
        refine ⟨p + 1, ?_, ?_⟩
        · rwa [limitValAt_cons_succ]
        · intro q hq
          cases q with
          | zero => exact hzero
          | succ q' => rw [limitValAt_cons_succ]; exact hmin q' (by omega)
      · rintro ⟨p, hp, hmin⟩
        cases p with
        | zero => rw [hzero] at hp; exact absurd hp (by simp)
        | succ p' =>
          rw [limitValAt_cons_succ] at hp
          refine ⟨p', hp, ?_⟩
          intro q hq
          have := hmin (q + 1) (by omega)
          rwa [limitValAt_cons_succ] at this
    · have hpw : prevW = false := by
        cases hw : prevW with
        | true => subst hw; simp at hhead
        | false => rfl
      subst hpw
      simp only [if_neg Bool.false_ne_true] at hhead
      have hzero : limitValAt false (c :: rest) 0 = some v₀ := by
        rw [limitValAt_cons_zero, if_neg Bool.false_ne_true, hhead]
        rfl
      constructor
      · intro h
        simp only [Option.some.injEq] at h
        subst h
        exact ⟨0, hzero, by omega⟩
      · rintro ⟨p, hp, hmin⟩
        cases p with
        | zero => rw [hzero] at hp; simpa using hp
        | succ p' =>
          have := hmin 0 (by omega)
          rw [hzero] at this
          exact absurd this (by simp)

/-- `findLimit` finds exactly the first positional match. -/
theorem findLimit_eq_some_iff (l : List Char) (v : Nat) :
    findLimit l = some v ↔
      ∃ p, LimitMatchAt l p v ∧ ∀ q w, q < p → ¬ LimitMatchAt l q w := by
  unfold findLimit LimitMatchAt
  rw [findLimitAux_eq_some_iff]
  constructor
  · rintro ⟨p, hp, hmin⟩
    refine ⟨p, hp, ?_⟩
    intro q w hq hqw
    rw [hmin q hq] at hqw
    exact absurd hqw (by simp)
  · rintro ⟨p, hp, hmin⟩
    refine ⟨p, hp, ?_⟩
    intro q hq
    rcases hval : limitValAt false l q with - | w
    · rfl
    · exact absurd hval (hmin q w hq)

/-- `findLimit` fails exactly when no position matches. -/
theorem findLimit_eq_none_iff (l : List Char) :
    findLimit l = none ↔ ∀ p v, ¬ LimitMatchAt l p v := by
  unfold findLimit LimitMatchAt
  rw [findLimitAux_eq_none_iff]
  constructor
  · intro h p v hpv
    rw [h p] at hpv
    exact absurd hpv (by simp)
  · intro h p
    rcases hval : limitValAt false l p with - | w
    · rfl
    · exact absurd hval (h p w)

/-! ## Agent state and the validation node (`agent_states.py`, `sql_validate_query.py`)

`AgentState` is a `TypedDict` with `total=False`: every field is optional.
A node's return value is a *delta*: only the fields it contains are written
back to the LangGraph channels.  All channels of this `StateGraph` are
plain last-value channels (no `Annotated` reducers), so a later write to a
field replaces an earlier one. -/

/-- A result row, `dict(row._mapping)` (modelled opaquely as an
association list). -/
abbrev Row := List (String × String)

/-- `AgentState` from `agent_states.py` (`TypedDict, total=False`): `none`
means the key is absent. -/
structure AgentState where
  question : Option String := none
  sql : Option String := none
  is_valid : Option Bool := none
  rows : Option (List Row) := none
  error : Option String := none
  context_chunks : Option (List String) := none
  tables_in_scope : Option (List String) := none
deriving DecidableEq

/-- The empty state / empty delta (no keys present). -/
def emptyState : AgentState := {}

/-- Per-field LangGraph last-value channel update: a field present in the
delta replaces the stored value, an absent field leaves it unchanged. -/
def updField {α : Type} (old new : Option α) : Option α :=
  match new with
  | some v => some v
  | none => old

/-- Apply a node's delta to the current state (deltas merge left to right
over the run; the latest write to a field wins). -/
def mergeState (old delta : AgentState) : AgentState where
  question := updField old.question delta.question
  sql := updField old.sql delta.sql
  is_valid := updField old.is_valid delta.is_valid
  rows := updField old.rows delta.rows
  error := updField old.error delta.error
  context_chunks := updField old.context_chunks delta.context_chunks
  tables_in_scope := updField old.tables_in_scope delta.tables_in_scope

/-- `ALLOWED_TABLES` as character lists, for comparison with extracted
identifiers.  Membership in a Python set of strings is exact,
case-sensitive string equality. -/
def allowedTablesL : List (List Char) := ALLOWED_TABLES.map String.data

/-- `", ".join(illegal)`. -/
def joinCommaL (ls : List (List Char)) : List Char :=
  List.intercalate (", ").data ls

/-- `"No SQL to validate."` -/
def msgNoSql : String := "No SQL to validate."

/-- Prefix of the forbidden-keyword rejection message. -/
def msgForbiddenPre : String := "Forbidden or invalid SQL detected: "

/-- `"Multiple SQL statements detected; only one SELECT is allowed."` -/
def msgMulti : String := "Multiple SQL statements detected; only one SELECT is allowed."

/-- `"No table referenced (missing FROM?)."` -/
def msgNoTable : String := "No table referenced (missing FROM?)."

/-- Prefix of the illegal-table rejection message. -/
def msgIllegalPre : String := "Illegal table(s): "

/-- A rejection delta `{"is_valid": False, "error": msg}`. -/
def invalidDelta (msg : String) : AgentState :=
  { emptyState with is_valid := some false, error := some msg }

/-- `validate_sql(state)` from `sql_validate_query.py`.

The Python function mutates its `state` argument in place on the accept
path (`state["sql"] = safe_sql`) but *returns* only `{"is_valid": True}`.
Under LangGraph, the `state` a node receives is a fresh read of the
channels, and only the returned delta is written back, so the in-place
mutation is discarded by the orchestrator.  To keep both effects visible
the embedding returns the pair (mutated local state, returned delta); the
graph semantics below uses only the delta, as LangGraph does. -/
def validate_sql (state : AgentState) : AgentState × AgentState :=
  let sql := match state.sql with
    | some s => s
    | none => ""
  if sql.data = [] then
    (state, invalidDelta msgNoSql)
  else
    match contains_forbidden sql.data with
    | some bad => (state, invalidDelta (msgForbiddenPre ++ bad))
    | none =>
      if (sqlparseSplit sql.data).length ≠ 1 then
        (state, invalidDelta msgMulti)
      else
        let tables := extract_tables sql.data
        if tables = [] then
          (state, invalidDelta msgNoTable)
        else
          let illegal := tables.filter (fun t => !(allowedTablesL.contains t))
          if illegal ≠ [] then
            (state, invalidDelta (msgIllegalPre ++ String.mk (joinCommaL illegal)))
          else
            ({ state with sql := some (String.mk (inject_safe_limit sql.data MAX_LIMIT)) },
             { emptyState with is_valid := some true })


/-! ## The generation node (`sql_generate_query.py`) -/

/-- The three-backtick fence. -/
def fence3 : List Char := "```".data

/-- The fence language tag `sql`. -/
def sqlTag : List Char := "sql".data

/-- First alternative `^```(?:sql)?\s*` of the fence-stripping pattern
(only applicable at a line start).  On success, returns the remainder after
the match and whether the match ended just after a newline (which restores
the line-start condition for the next scan position). -/
def fenceTryA (l : List Char) : Option (List Char × Bool) :=
  if fence3.isPrefixOf l then
    let r1 := l.drop 3
    let r2 := if ciPrefix sqlTag r1 then r1.drop 3 else r1
    let ws := r2.takeWhile isWsCh
    some (r2.dropWhile isWsCh, ws.getLast? = some (Char.ofNat 10))
  else none

/-- Second alternative `\s*```$` of the fence-stripping pattern (`$` in
`re.MULTILINE` holds before a newline or at the end).  The greedy `\s*`
must consume the whole whitespace run, since a backtick is not
whitespace. -/
def fenceTryB (l : List Char) : Option (List Char) :=
  if fence3.isPrefixOf (l.dropWhile isWsCh) then
    let after := (l.dropWhile isWsCh).drop 3
    match after.head? with
    | none => some after
    | some c => if c = Char.ofNat 10 then some after else none
  else none

/-- `re.sub(r"^```(?:sql)?\s*|\s*```$", "", raw, re.IGNORECASE | re.MULTILINE)`:
left-to-right scan, trying the first alternative (at line starts) then the
second at each position; a failed position emits its character.  Each match
consumes at least three characters, so `fuel = l.length` suffices. -/
def fenceScan : Nat → Bool → List Char → List Char
  | 0, _, l => l
  | _ + 1, _, [] => []
  | fuel + 1, atLS, c :: rest =>
    match (if atLS then fenceTryA (c :: rest) else none) with
    | some (rem, newLS) => fenceScan fuel newLS rem
    | none =>
      match fenceTryB (c :: rest) with
      | some rem => fenceScan fuel false rem
      | none => c :: fenceScan fuel (c = Char.ofNat 10) rest

/-- The fence-stripping `re.sub` of `llm_generate_sql`. -/
def stripFences (l : List Char) : List Char := fenceScan l.length true l

/-- One match attempt of `re.search(r"\blimit\b\s+\d+\s*$", sql)` at the
head of the input: a limit clause whose digits are followed only by
whitespace up to the end. -/
def endsLimitTryAt (l : List Char) : Bool :=
  match limitTryAt l with
  | some (_, after) => after.dropWhile isWsCh = []
  | none => false

/-- Scanner for `re.search(r"\blimit\b\s+\d+\s*$", sql, re.IGNORECASE)`. -/
def endsWithLimitAux : Bool → List Char → Bool
  | _, [] => false
  | prevW, c :: rest =>
    (!prevW && endsLimitTryAt (c :: rest)) || endsWithLimitAux (isWordCh c) rest

/-- Does the SQL end with an explicit `LIMIT <n>` clause? -/
def endsWithLimitPat (l : List Char) : Bool := endsWithLimitAux false l

/-- `"LLM returned empty SQL."` -/
def msgEmptyLLM : String := "LLM returned empty SQL."

/-- `f"LLM error {r.status_code}: {r.text}"`. -/
def genHttpErrMsg (status : Nat) (text : String) : String :=
  "LLM error " ++ Nat.repr status ++ ": " ++ text

/-- The post-processing of a 200-status LLM response body in
`llm_generate_sql`: strip, remove code fences, split statements, take the
first, strip semicolons, and append a `LIMIT` clause when none ends the
query. -/
def gen_from_response (raw : String) : AgentState :=
  let cleaned := pyStrip (stripFences (pyStrip raw.data))
  match sqlparseSplit cleaned with
  | [] => { emptyState with error := some msgEmptyLLM }
  | st0 :: _ =>
    let sql0 := rstripSemis (pyStrip st0)
    let sql1 :=
      if endsWithLimitPat sql0 then sql0
      else sql0 ++ (" LIMIT " ++ Nat.repr MAX_LIMIT).data
    { emptyState with sql := some (String.mk sql1) }

/-- An LLM HTTP response: status code, body text, and the `response` field
of the JSON body (`r.json().get("response") or ""` collapses a missing or
null field to the empty string). -/
structure LLMResp where
  status : Nat
  text : String
  response : String
deriving DecidableEq

/-- Uncaught exceptions that can escape a pipeline step: a connection
failure in the retrieval step, an HTTP-client failure in the generation
step, or a `KeyError` from an unguarded state lookup. -/
inductive RunExn where
  | retrieveExn (e : String)
  | genExn (e : String)
  | keyError (field : String)
deriving DecidableEq

/-- The state key `"question"`. -/
def questionField : String := "question"

/-- The state key `"sql"`. -/
def sqlField : String := "sql"

/-- `llm_generate_sql(state)`: reads `state["question"]` without a guard;
the HTTP call is the `llm` oracle, whose `Except.error` is an uncaught
client exception (the `async with` block has no `try/except`). -/
def llm_generate_sql (state : AgentState) (llm : Except String LLMResp) :
    Except RunExn AgentState :=
  match state.question with
  | none => Except.error (RunExn.keyError questionField)
  | some _ =>
    match llm with
    | Except.error e => Except.error (RunExn.genExn e)
    | Except.ok r =>
      if r.status ≠ 200 then
        Except.ok { emptyState with error := some (genHttpErrMsg r.status r.text) }
      else
        Except.ok (gen_from_response r.response)

/-- `end_error(state)`: the identity error handler returns the state
itself (as a delta, which re-merges to the same state). -/
def end_error (state : AgentState) : AgentState := state

/-! ## Retrieval and execution nodes (`retrieve.py`, `sql_execute_query.py`) -/

/-- `retrieve_schema_context(state)`: reads `state["question"]` without a
guard, then queries Qdrant.  The Qdrant call is the `qdrant` oracle, a
list of `(document, metadata["table"])` pairs on success.  The function
body has **no** `try/except`: a failing oracle is an uncaught exception of
the step.  `list(set(tables))` is modelled as first-occurrence
deduplication (CPython set order is unspecified). -/
def retrieve_schema_context (state : AgentState)
    (qdrant : Except String (List (String × String))) : Except RunExn AgentState :=
  match state.question with
  | none => Except.error (RunExn.keyError questionField)
  | some _ =>
    match qdrant with
    | Except.error e => Except.error (RunExn.retrieveExn e)
    | Except.ok results =>
      Except.ok { emptyState with
        context_chunks := some (results.map Prod.fst),
        tables_in_scope := some ((results.map Prod.snd).eraseDups) }

/-- `"DB error: "` prefix of the execution failure message. -/
def msgDbErrPre : String := "DB error: "

/-- `execute_sql_query(state)`: the lookup `state["sql"]` is *outside* the
`try` block (an absent key raises `KeyError` out of the step), while the
database interaction is inside it (its failure becomes an `{error}`
delta). -/
def execute_sql_query (state : AgentState)
    (db : String → Except String (List Row)) : Except RunExn AgentState :=
  match state.sql with
  | none => Except.error (RunExn.keyError sqlField)
  | some q =>
    match db q with
    | Except.ok rows => Except.ok { emptyState with rows := some rows }
    | Except.error e =>
      Except.ok { emptyState with error := some (msgDbErrPre ++ e) }

/-! ## The LangGraph wiring (`main.py`)

`retrieve_schema_context → generate_sql_query → validate_sql_query`, then
conditionally `execute_sql_query` (when `state.get("is_valid")` is truthy)
or `error`, then `END`.  Each node's returned delta is applied to the
last-value channels; uncaught exceptions abort the run. -/

/-- One full graph run for a question, given the three external oracles. -/
def runGraph (question : String) (qdrant : Except String (List (String × String)))
    (llm : Except String LLMResp) (db : String → Except String (List Row)) :
    Except RunExn AgentState :=
  let s0 : AgentState := { emptyState with question := some question }
  match retrieve_schema_context s0 qdrant with
  | Except.error e => Except.error e
  | Except.ok d1 =>
    let s1 := mergeState s0 d1
    match llm_generate_sql s1 llm with
    | Except.error e => Except.error e
    | Except.ok d2 =>
      let s2 := mergeState s1 d2
      let s3 := mergeState s2 (validate_sql s2).2
      if s3.is_valid = some true then
        match execute_sql_query s3 db with
        | Except.error e => Except.error e
        | Except.ok d4 => Except.ok (mergeState s3 d4)
      else
        Except.ok (mergeState s3 (end_error s3))

/-- Decidable equality of run results (for evaluating concrete runs). -/
instance {e a : Type} [DecidableEq e] [DecidableEq a] : DecidableEq (Except e a) := by
  intro x y
  cases x with
  | error xe =>
    cases y with
    | error ye =>
      exact decidable_of_iff (xe = ye)
        ⟨fun h => by rw [h], fun h => by cases h; rfl⟩
    | ok ya => exact Decidable.isFalse (by intro h; cases h)
  | ok xa =>
    cases y with
    | error ye => exact Decidable.isFalse (by intro h; cases h)
    | ok ya =>
      exact decidable_of_iff (xa = ya)
        ⟨fun h => by rw [h], fun h => by cases h; rfl⟩

/-! ## The response model (`request_models.py`, `main.py`) -/

/-- `QueryOutput` from `request_models.py`: the pydantic response model
declares exactly the fields `sql`, `rows`, `error`, `run_id`. -/
structure QueryOutput where
  sql : Option String := none
  rows : Option (List Row) := none
  error : Option String := none
  run_id : String
deriving DecidableEq

/-- A serialized JSON field value of the response. -/
inductive FieldVal where
  | str (s : String)
  | rowsVal (r : List Row)
  | nullVal
deriving DecidableEq

/-- Serialize an optional string field. -/
def optStrVal : Option String → FieldVal
  | some s => FieldVal.str s
  | none => FieldVal.nullVal

/-- Serialize the optional rows field. -/
def optRowsVal : Option (List Row) → FieldVal
  | some r => FieldVal.rowsVal r
  | none => FieldVal.nullVal

/-- The declared field names of the `QueryOutput` pydantic model, in
declaration order — the keys of the serialized response. -/
def queryOutputKeys : List String := ["sql", "rows", "error", "run_id"]

/-- The serialized response body: pydantic emits exactly the declared
model fields (present-but-null fields included). -/
def responsePairs (o : QueryOutput) : List (String × FieldVal) :=
  [("sql", optStrVal o.sql), ("rows", optRowsVal o.rows),
   ("error", optStrVal o.error), ("run_id", FieldVal.str o.run_id)]

/-- The `QueryOutput(...)` constructor call of `agent_query` in `main.py`.
The call passes `tables_in_scope=` and `context_chunks=` keyword
arguments, but `QueryOutput` declares no such fields and pydantic's
default configuration silently ignores unknown constructor keywords, so
both arguments are dropped. -/
def buildQueryOutput (sql : Option String) (rows : Option (List Row))
    (error : Option String) (_tablesInScope : Option (List String))
    (_contextChunks : Option (List String)) (runId : String) : QueryOutput :=
  { sql := sql, rows := rows, error := error, run_id := runId }

/-- The response constructed by `agent_query` from the final graph state
and the generated run id. -/
def agent_query (result : AgentState) (runId : String) : QueryOutput :=
  buildQueryOutput result.sql result.rows result.error
    result.tables_in_scope result.context_chunks runId


/-! ## Shared concrete material for the claims -/

/-- State holding only a SQL query, as validation receives it. -/
def mkSqlState (s : String) : AgentState := { emptyState with sql := some s }

/-- A database oracle that succeeds with no rows. -/
def dbOkEmpty : String → Except String (List Row) := fun _ => Except.ok []

/-- End-to-end scenario 2 of the spec. -/
def scenario2Sql : String := "SELECT * FROM secrets; DROP TABLE orders;"

/-- The denylisted keyword of scenario 2. -/
def kwDrop : String := "drop"

theorem updField_self {α : Type} (x : Option α) : updField x x = x := by
  cases x <;> rfl

theorem mergeState_self (s : AgentState) : mergeState s s = s := by
  cases s
  simp only [mergeState, updField_self]

/-- `validate_sql` either rejects — leaving its local state untouched and
returning an `is_valid = False` delta with an error message and no `sql`
key — or accepts, rewriting only the local copy of `sql` and returning the
bare `{"is_valid": True}` delta. -/
theorem validate_sql_shape (st : AgentState) :
    (∃ m, validate_sql st = (st, invalidDelta m)) ∨
    (∃ s : String, st.sql = some s ∧ s.data ≠ [] ∧
      validate_sql st =
        ({ st with sql := some (String.mk (inject_safe_limit s.data MAX_LIMIT)) },
         { emptyState with is_valid := some true })) := by
  rcases hsql : st.sql with - | s
  · left
    refine ⟨msgNoSql, ?_⟩
    unfold validate_sql
    rw [hsql]
    rfl
  · by_cases h0 : s.data = []
    · left
      refine ⟨msgNoSql, ?_⟩
      unfold validate_sql
      rw [hsql]
      simp [h0]
    · unfold validate_sql
      rw [hsql]
      dsimp only
      rw [if_neg h0]
      rcases hcf : contains_forbidden s.data with - | bad
      · dsimp only
        by_cases hsp : (sqlparseSplit s.data).length ≠ 1
        · left
          refine ⟨msgMulti, ?_⟩
          rw [if_pos hsp]
        · by_cases htb : extract_tables s.data = []
          · left
            refine ⟨msgNoTable, ?_⟩
            rw [if_neg hsp, if_pos htb]
          · by_cases hil :
              (extract_tables s.data).filter (fun t => !(allowedTablesL.contains t)) ≠ []
            · left
              refine ⟨msgIllegalPre ++ String.mk (joinCommaL
                ((extract_tables s.data).filter (fun t => !(allowedTablesL.contains t)))), ?_⟩
              rw [if_neg hsp, if_neg htb, if_pos hil]
            · right
              refine ⟨s, rfl, h0, ?_⟩
              rw [if_neg hsp, if_neg htb, if_neg hil]
      · left
        exact ⟨msgForbiddenPre ++ bad, rfl⟩

/-- On every rejection, `validate_sql` leaves its local state untouched
and returns a delta without a `sql` key. -/
theorem validate_sql_reject_no_mutation (st : AgentState)
    (h : (validate_sql st).2.is_valid = some false) :
    (validate_sql st).1 = st ∧ (validate_sql st).2.sql = none := by
  rcases validate_sql_shape st with ⟨m, hm⟩ | ⟨s, -, -, hacc⟩
  · rw [hm]
    exact ⟨rfl, rfl⟩
  · rw [hacc] at h
    simp [emptyState] at h

/-- Acceptance by `validate_sql` requires a present, non-empty `sql` key
in the node's input state. -/
theorem validate_sql_accept_sql_present (st : AgentState)
    (h : (validate_sql st).2.is_valid = some true) :
    ∃ s : String, st.sql = some s ∧ s.data ≠ [] := by
  rcases validate_sql_shape st with ⟨m, hm⟩ | ⟨s, hs, hne, -⟩
  · rw [hm] at h
    simp [invalidDelta, emptyState] at h
  · exact ⟨s, hs, hne⟩

/-- Projection lemmas for the channel update. -/
@[simp] theorem updField_none {α : Type} (x : Option α) : updField x none = x := rfl

@[simp] theorem updField_some {α : Type} (x : Option α) (v : α) :
    updField x (some v) = some v := rfl

@[simp] theorem mergeState_question (a b : AgentState) :
    (mergeState a b).question = updField a.question b.question := rfl

@[simp] theorem mergeState_sql (a b : AgentState) :
    (mergeState a b).sql = updField a.sql b.sql := rfl

@[simp] theorem mergeState_is_valid (a b : AgentState) :
    (mergeState a b).is_valid = updField a.is_valid b.is_valid := rfl

@[simp] theorem mergeState_rows (a b : AgentState) :
    (mergeState a b).rows = updField a.rows b.rows := rfl

@[simp] theorem mergeState_error (a b : AgentState) :
    (mergeState a b).error = updField a.error b.error := rfl

@[simp] theorem mergeState_context_chunks (a b : AgentState) :
    (mergeState a b).context_chunks = updField a.context_chunks b.context_chunks := rfl

@[simp] theorem mergeState_tables_in_scope (a b : AgentState) :
    (mergeState a b).tables_in_scope = updField a.tables_in_scope b.tables_in_scope := rfl

/-! ## Claim C1 -/

/-- C1: for every SQL string containing a denylisted keyword as a whole
word (case-insensitive), `validate_sql` rejects with the forbidden-keyword
error citing the matched keyword — with no assumption on the referenced
tables or on the number of statements, so the rejection precedes the
multiple-statements check and the allow-list check. -/
theorem C1_forbidden_keyword_always_rejects (s kw : String)
    (hmem : kw ∈ FORBIDDEN_KEYWORDS)
    (hww : WholeWordIn kw.data (lowerL s.data)) :
    ∃ fk : String, fk ∈ FORBIDDEN_KEYWORDS ∧ WholeWordIn fk.data (lowerL s.data) ∧
      findForbiddenKw (lowerL s.data) = some fk ∧
      (validate_sql (mkSqlState s)).2 = invalidDelta (msgForbiddenPre ++ fk) := by
  have hkwlen : ∀ k : String, k ∈ FORBIDDEN_KEYWORDS → k.data ≠ [] := by decide
  have hw : hasWord kw.data (lowerL s.data) = true :=
    (hasWord_iff_wholeWordIn kw.data (lowerL s.data) (hkwlen kw hmem)).mpr hww
  have hsome : (findForbiddenKw (lowerL s.data)).isSome := by
    unfold findForbiddenKw
    rw [List.find?_isSome]
    exact ⟨kw, hmem, hw⟩
  obtain ⟨fk, hfk⟩ := Option.isSome_iff_exists.mp hsome
  have hfk2 : FORBIDDEN_KEYWORDS.find? (fun k => hasWord k.data (lowerL s.data)) = some fk := by
    rw [← hfk]; rfl
  have hfkmem : fk ∈ FORBIDDEN_KEYWORDS := List.mem_of_find?_eq_some hfk2
  have hfkword : hasWord fk.data (lowerL s.data) = true := by
    simpa using List.find?_some hfk2
  have hne : s.data ≠ [] := by
    intro hnil
    obtain ⟨a, b, habs, -, -⟩ := hww
    rw [hnil] at habs
    have hlen := congrArg List.length habs
    simp only [lowerL, List.map_nil, List.length_nil, List.length_append] at hlen
    have hkpos : 0 < kw.data.length := List.length_pos.mpr (hkwlen kw hmem)
    omega
  refine ⟨fk, hfkmem,
    (hasWord_iff_wholeWordIn fk.data (lowerL s.data) (hkwlen fk hfkmem)).mp hfkword,
    hfk, ?_⟩
  unfold validate_sql mkSqlState
  dsimp only
  rw [if_neg hne]
  have hcf : contains_forbidden s.data = some fk := by
    unfold contains_forbidden
    rw [hfk]
  rw [hcf]

/-- C1 witness: the end-to-end scenario 2 input contains `drop` as a whole
word, the theorem applies, the reported keyword is `drop`, and the input
in fact consists of two statements (the forbidden-keyword rejection fires
before the multiple-statements check could). -/
theorem C1_witness_scenario2 :
    (kwDrop ∈ FORBIDDEN_KEYWORDS ∧ WholeWordIn kwDrop.data (lowerL scenario2Sql.data)) ∧
    (∃ fk : String, fk ∈ FORBIDDEN_KEYWORDS ∧ WholeWordIn fk.data (lowerL scenario2Sql.data) ∧
      findForbiddenKw (lowerL scenario2Sql.data) = some fk ∧
      (validate_sql (mkSqlState scenario2Sql)).2 = invalidDelta (msgForbiddenPre ++ fk)) ∧
    findForbiddenKw (lowerL scenario2Sql.data) = some kwDrop ∧
    (sqlparseSplit scenario2Sql.data).length = 2 :=
  ⟨⟨by decide,
    (hasWord_iff_wholeWordIn kwDrop.data (lowerL scenario2Sql.data) (by decide)).mp (by decide)⟩,
   C1_forbidden_keyword_always_rejects scenario2Sql kwDrop (by decide)
     ((hasWord_iff_wholeWordIn kwDrop.data (lowerL scenario2Sql.data) (by decide)).mp (by decide)),
   by decide, by decide⟩

/-! ## Claim C2 -/

/-- Question used in the C2 run. -/
def qC2 : String := "show me customers"

/-- A generated query whose LIMIT exceeds the configured maximum. -/
def genC2 : String := "SELECT * FROM customers LIMIT 500"

/-- The validator's rewritten safe form of `genC2`. -/
def safeC2 : String := "SELECT * FROM customers LIMIT 100"

/-- The retrieval oracle of the C2/C3 runs. -/
def oracleRetr : Except String (List (String × String)) :=
  Except.ok [("CREATE TABLE customers (id int)", "customers")]

/-- C2 (code bug): on a successful run the terminal state's `sql` is the
*raw* generated SQL, not the validator's limit-enforced rewrite.
`validate_sql` stores the rewrite only into its local state copy
(`state["sql"] = safe_sql`), which LangGraph discards, and returns a delta
containing only `is_valid`; so for the generated query `SELECT * FROM
customers LIMIT 500` the run ends with `sql = ... LIMIT 500` even though
the limit-enforcing rewrite yields `... LIMIT 100`. -/
theorem C2_final_sql_is_raw_not_rewritten :
    (runGraph qC2 oracleRetr (Except.ok ⟨200, "", genC2⟩) dbOkEmpty).toOption.map
        AgentState.sql = some (some genC2) ∧
    inject_safe_limit genC2.data MAX_LIMIT = safeC2.data ∧
    (genC2 == safeC2) = false ∧
    (validate_sql (mkSqlState genC2)).1.sql = some safeC2 ∧
    (validate_sql (mkSqlState genC2)).2 = { emptyState with is_valid := some true } := by
  decide

/-! ## Claim C3 -/

/-- Question used in the C3 run. -/
def qC3 : String := "list the orders"

/-- C3 counterexample: with an empty LLM completion the generator's error
delta (`LLM returned empty SQL.`) is *not* the error of the final state —
validation overwrites it with `No SQL to validate.` (last writer wins, not
first writer wins). -/
theorem C3_counterexample_error_overwritten :
    (runGraph qC3 oracleRetr (Except.ok ⟨200, "", ""⟩) dbOkEmpty).toOption.map
        (fun s => (s.error, s.sql)) = some (some msgNoSql, none) ∧
    (gen_from_response "").error = some msgEmptyLLM ∧
    (msgNoSql == msgEmptyLLM) = false := by
  decide

/-- The final state of an empty-completion run. -/
def c3FinalState (q : String) (res : List (String × String)) : AgentState :=
  { question := some q, sql := none, is_valid := some false, rows := none,
    error := some msgNoSql, context_chunks := some (res.map Prod.fst),
    tables_in_scope := some ((res.map Prod.snd).eraseDups) }

/-- C3 amended: state deltas merge left-to-right with the *last* writer
winning.  For every run whose LLM completion is empty (any question, any
retrieval result, any database oracle), the generator first writes the
error `LLM returned empty SQL.`, validation then overwrites it, and the
final state carries `error = No SQL to validate.` with `sql` absent. -/
theorem C3_amended_last_writer_wins (q : String) (res : List (String × String))
    (text : String) (db : String → Except String (List Row)) :
    runGraph q (Except.ok res) (Except.ok ⟨200, text, ""⟩) db =
      Except.ok (c3FinalState q res) ∧
    (gen_from_response "").error = some msgEmptyLLM ∧
    (c3FinalState q res).error = some msgNoSql ∧
    (c3FinalState q res).sql = none := by
  refine ⟨?_, by decide, rfl, rfl⟩
  have hgen : gen_from_response "" = { emptyState with error := some msgEmptyLLM } := by decide
  have hval : ∀ st : AgentState, st.sql = none →
      (validate_sql st).2 = invalidDelta msgNoSql := by
    intro st hst
    unfold validate_sql
    rw [hst]
    rfl
  unfold runGraph retrieve_schema_context llm_generate_sql
  simp only [emptyState, hgen, hval]
  rfl

/-! ## Claim C6 -/

/-- Question used in the C6 run. -/
def qC6 : String := "what products exist"

/-- The Qdrant connection failure message. -/
def connMsg : String := "connection refused"

/-- C6 counterexample: when the schema-search index is unreachable the
retrieval step does *not* produce an `{error}` delta — the exception
escapes the step and the run aborts without reaching `Done`. -/
theorem C6_counterexample_retrieval_exception_escapes :
    runGraph qC6 (Except.error connMsg) (Except.ok ⟨200, "", ""⟩) dbOkEmpty =
      Except.error (RunExn.retrieveExn connMsg) ∧
    (runGraph qC6 (Except.error connMsg) (Except.ok ⟨200, "", ""⟩) dbOkEmpty).toOption =
      none := by
  decide

/-- C6 amended: only the execution step catches exceptions at the step
boundary, converting database failures into a `DB error: ...` delta; the
retrieval step has no handler, so an unreachable index always propagates
its exception out of the graph run. -/
theorem C6_amended_only_execute_catches (e q e2 query : String)
    (llm : Except String LLMResp) (db : String → Except String (List Row))
    (st : AgentState) :
    runGraph q (Except.error e) llm db = Except.error (RunExn.retrieveExn e) ∧
    execute_sql_query { st with sql := some query } (fun _ => Except.error e2) =
      Except.ok { emptyState with error := some (msgDbErrPre ++ e2) } := by
  constructor
  · unfold runGraph retrieve_schema_context
    rfl
  · unfold execute_sql_query
    rfl

/-! ## Claim C7 -/

/-- An accepted query with a trailing semicolon followed by whitespace. -/
def exC7 : String := "SELECT * FROM customers; "

/-- Its "safe" rewrite: the surviving semicolon now separates two
statements. -/
def exC7safe : String := "SELECT * FROM customers;  LIMIT 100"

/-- C7 (code bug): validation is not idempotent on accepted input.
`validate_sql` accepts `SELECT * FROM customers; ` (one statement — the
trailing whitespace is consumed into it) and rewrites it to
`SELECT * FROM customers;  LIMIT 100` — `rstrip(';')` fails to remove the
semicolon because whitespace follows it, so the appended LIMIT creates a
second statement and re-validation rejects the validator's own output
(which is also not executable as a single SELECT, contradicting the
intent of the rewrite). -/
theorem C7_idempotence_fails_on_trailing_semicolon :
    (validate_sql (mkSqlState exC7)).2 = { emptyState with is_valid := some true } ∧
    (validate_sql (mkSqlState exC7)).1.sql = some exC7safe ∧
    (validate_sql (mkSqlState exC7safe)).2 = invalidDelta msgMulti := by
  decide

/-! ## Claim C8 -/

/-- C8 (code bug): for every run result the serialized response exposes
exactly the four declared `QueryOutput` fields; `tablesInScope` and
`contextChunks` (under any spelling) are absent, because the pydantic
response model does not declare them and the extra keyword arguments
passed by `agent_query` are silently dropped. -/
theorem C8_response_lacks_retrieval_fields (result : AgentState) (runId : String) :
    (responsePairs (agent_query result runId)).map Prod.fst = queryOutputKeys ∧
    queryOutputKeys.contains ("tablesInScope") = false ∧
    queryOutputKeys.contains ("contextChunks") = false ∧
    queryOutputKeys.contains ("tables_in_scope") = false ∧
    queryOutputKeys.contains ("context_chunks") = false := by
  refine ⟨?_, by decide, by decide, by decide, by decide⟩
  rfl

/-- Boolean `contains` agrees with membership (lawful `BEq`). -/
theorem listContains_iff {α : Type} [BEq α] [LawfulBEq α] (l : List α) (a : α) :
    l.contains a = true ↔ a ∈ l := by
  constructor
  · intro h
    rw [List.contains_iff_exists_mem_beq] at h
    obtain ⟨x, hx, hbeq⟩ := h
    rwa [eq_of_beq hbeq]
  · exact List.elem_eq_true_of_mem

/-! ## Claim C4 -/

/-- SQL whose table name differs from an allow-listed one only in case. -/
def exC4 : String := "SELECT * FROM Customers"

/-- The extracted, mixed-case table identifier. -/
def tCustomersU : String := "Customers"

/-- The allow-listed lowercase table name. -/
def tCustomersLo : String := "customers"

/-- C4 counterexample: the claim's case-insensitivity fails.  The table
extracted from `SELECT * FROM Customers` differs from the allow-listed
`customers` only in letter case, yet the allow-list check rejects it:
membership in the Python set `ALLOWED_TABLES` is case-sensitive. -/
theorem C4_counterexample_case_sensitive :
    extract_tables exC4.data = [tCustomersU.data] ∧
    lowerL tCustomersU.data = tCustomersLo.data ∧
    tCustomersLo ∈ ALLOWED_TABLES ∧
    allowedTablesL.contains tCustomersU.data = false ∧
    (validate_sql (mkSqlState exC4)).2 = invalidDelta (msgIllegalPre ++ tCustomersU) := by
  decide

/-- C4 amended: extraction matches the `FROM`/`JOIN` keywords
case-insensitively, but each extracted identifier is compared against the
allow-list by *exact, case-sensitive* string equality (so names differing
only in case are rejected, and names merely containing an allow-listed
name as a substring are rejected): on SQL that passes the earlier checks,
validation accepts exactly when every extracted table is literally a
member of `ALLOWED_TABLES`. -/
theorem C4_amended_exact_case_sensitive_membership (s : String)
    (h1 : contains_forbidden s.data = none)
    (h2 : (sqlparseSplit s.data).length = 1)
    (h3 : extract_tables s.data ≠ []) :
    ((validate_sql (mkSqlState s)).2.is_valid = some true ↔
      ∀ t ∈ extract_tables s.data, t ∈ allowedTablesL) := by
  have hne : s.data ≠ [] := by
    intro hnil
    rw [hnil] at h1
    exact absurd h1 (by decide)
  unfold validate_sql mkSqlState
  dsimp only
  rw [if_neg hne, h1]
  dsimp only
  rw [if_neg (by omega : ¬ (sqlparseSplit s.data).length ≠ 1), if_neg h3]
  by_cases hil :
      (extract_tables s.data).filter (fun t => !(allowedTablesL.contains t)) ≠ [] 
  · rw [if_pos hil]
    constructor
    · intro h
      exact absurd h (by simp [invalidDelta, emptyState])
    · intro hall
      exfalso
      apply hil
      rw [List.filter_eq_nil_iff]
      intro t ht
      have hc : allowedTablesL.contains t = true :=
        (listContains_iff allowedTablesL t).mpr (hall t ht)
      simp [hc]
      exact hall t ht
  · rw [if_neg hil]
    simp only [not_not] at hil
    constructor
    · intro _ t ht
      by_contra hmem
      have hfil : t ∈ (extract_tables s.data).filter (fun t => !(allowedTablesL.contains t)) :=
        List.mem_filter.mpr ⟨ht, by
          simp only [Bool.not_eq_true']
          rw [← Bool.not_eq_true]
          intro hc
          exact hmem ((listContains_iff allowedTablesL t).mp hc)⟩
      rw [hil] at hfil
      simp at hfil
    · intro _
      rfl

/-- C4 witness: the amended theorem applied to `SELECT * FROM Customers`,
whose single extracted table `Customers` is not a literal member of the
allow-list, so the equivalence makes validation reject it. -/
theorem C4_witness :
    (contains_forbidden exC4.data = none ∧ (sqlparseSplit exC4.data).length = 1 ∧
      extract_tables exC4.data ≠ []) ∧
    ((validate_sql (mkSqlState exC4)).2.is_valid = some true ↔
      ∀ t ∈ extract_tables exC4.data, t ∈ allowedTablesL) :=
  ⟨⟨by decide, by decide, by decide⟩,
   C4_amended_exact_case_sensitive_membership exC4 (by decide) (by decide) (by decide)⟩

/-! ## Claim C5 -/

/-- Absence of a limit match at one position, executably. -/
theorem limitValAt_none_iff (l : List Char) (q : Nat) :
    limitValAt false l q = none ↔ ∀ w, ¬ LimitMatchAt l q w := by
  unfold LimitMatchAt
  constructor
  · intro h w hw
    rw [h] at hw
    exact absurd hw (by simp)
  · intro h
    rcases hv : limitValAt false l q with - | w
    · rfl
    · exact absurd hv (h w)

instance (l : List Char) (q : Nat) : Decidable (∀ w, ¬ LimitMatchAt l q w) :=
  decidable_of_iff (limitValAt false l q = none) (limitValAt_none_iff l q)

/-- An accepted query with an inner LIMIT before the trailing one. -/
def exC5 : String := "SELECT * FROM (SELECT id FROM orders LIMIT 5) x LIMIT 500"

/-- C5 counterexample: the limit step keys on the *first* `LIMIT n`
occurrence, not on a trailing one.  This accepted query ends with
`LIMIT 500 > 100`, but since the first occurrence is the inner `LIMIT 5`
(within bound), the SQL is left entirely unchanged, so the trailing LIMIT
is not rewritten down to the maximum. -/
theorem C5_counterexample_trailing_limit_unbounded :
    (validate_sql (mkSqlState exC5)).2 = { emptyState with is_valid := some true } ∧
    inject_safe_limit exC5.data MAX_LIMIT = exC5.data ∧
    (validate_sql (mkSqlState exC5)).1.sql = some exC5 ∧
    (" LIMIT 500").data.isSuffixOf exC5.data = true ∧
    500 > MAX_LIMIT := by
  decide

/-- C5 amended: the row-limit step searches for the *first* `LIMIT n`
clause anywhere in the SQL (first in position, per the positional reading
of the pattern): if that first `n` exceeds the maximum, every LIMIT clause
is rewritten to `LIMIT <max>`; if it is within bound, the SQL is returned
entirely unchanged; if no LIMIT clause matches anywhere, `LIMIT <max>` is
appended after stripping trailing semicolons.  No rejecting validator step
touches the SQL (neither the local state nor the returned delta). -/
theorem C5_amended_first_limit_governs (s : String) :
    ((∀ p v, ¬ LimitMatchAt s.data p v) →
      inject_safe_limit s.data MAX_LIMIT =
        rstripSemis s.data ++ (" LIMIT " ++ Nat.repr MAX_LIMIT).data) ∧
    (∀ p v, LimitMatchAt s.data p v → (∀ q, q < p → ∀ w, ¬ LimitMatchAt s.data q w) →
      ((v ≤ MAX_LIMIT → inject_safe_limit s.data MAX_LIMIT = s.data) ∧
       (MAX_LIMIT < v →
         inject_safe_limit s.data MAX_LIMIT = subAllLimits s.data MAX_LIMIT))) ∧
    (∀ st : AgentState, (validate_sql st).2.is_valid = some false →
      (validate_sql st).1 = st ∧ (validate_sql st).2.sql = none) := by
  refine ⟨?_, ?_, validate_sql_reject_no_mutation⟩
  · intro h
    have hnone : findLimit s.data = none := (findLimit_eq_none_iff s.data).mpr h
    unfold inject_safe_limit
    rw [hnone]
  · intro p v hm hmin
    have hsome : findLimit s.data = some v :=
      (findLimit_eq_some_iff s.data v).mpr ⟨p, hm, fun q w hq => hmin q hq w⟩
    unfold inject_safe_limit
    rw [hsome]
    constructor
    · intro hle
      dsimp only
      rw [if_neg (by omega : ¬ v > MAX_LIMIT)]
    · intro hgt
      dsimp only
      rw [if_pos (by omega : v > MAX_LIMIT)]

/-- SQL with no LIMIT clause. -/
def exC5none : String := "SELECT name FROM products"

/-- A query the validator rejects (forbidden keyword). -/
def exRejected : String := "DROP TABLE orders"

/-- SQL with a single, over-bound LIMIT clause (matching at position 26). -/
def exC5over : String := "SELECT name FROM products LIMIT 500"

/-- C5 witness: the amended theorem applied to a query with no LIMIT
(the bound is appended) and to a query whose first LIMIT exceeds the
bound (the rewrite produces `LIMIT 100`). -/
theorem C5_witness :
    (∀ p v, ¬ LimitMatchAt exC5none.data p v) ∧
    inject_safe_limit exC5none.data MAX_LIMIT =
      rstripSemis exC5none.data ++ (" LIMIT " ++ Nat.repr MAX_LIMIT).data ∧
    LimitMatchAt exC5over.data 26 500 ∧
    inject_safe_limit exC5over.data MAX_LIMIT = subAllLimits exC5over.data MAX_LIMIT ∧
    subAllLimits exC5over.data MAX_LIMIT = ("SELECT name FROM products LIMIT 100").data ∧
    ((validate_sql (mkSqlState exRejected)).2.is_valid = some false ∧
      (validate_sql (mkSqlState exRejected)).1 = mkSqlState exRejected ∧
      (validate_sql (mkSqlState exRejected)).2.sql = none) :=
  ⟨(findLimit_eq_none_iff exC5none.data).mp (by decide),
   (C5_amended_first_limit_governs exC5none).1
     ((findLimit_eq_none_iff exC5none.data).mp (by decide)),
   by decide,
   ((C5_amended_first_limit_governs exC5over).2.1 26 500 (by decide)
     (by decide)).2 (by decide),
   by decide,
   by decide,
   ((C5_amended_first_limit_governs exC5over).2.2 (mkSqlState exRejected) (by decide)).1,
   ((C5_amended_first_limit_governs exC5over).2.2 (mkSqlState exRejected) (by decide)).2⟩

/-! ## Claim C9 -/

/-- Word-boundary test at a position of the whole input (`\b` before a
pattern starting with a word character; position 0 is a boundary). -/
def wordBoundAt (l : List Char) (p : Nat) : Bool := limitBound false l p

theorem wordBoundAt_append_nil (l' : List Char) :
    wordBoundAt (([] : List Char) ++ l') 0 = true := rfl

theorem wordBoundAt_append (a l' : List Char) (c : Char) (hc : a.getLast? = some c) :
    wordBoundAt (a ++ l') a.length = !isWordCh c := by
  have ha : a ≠ [] := by
    intro h
    rw [h] at hc
    exact absurd hc (by simp)
  have hlen : a.length = (a.length - 1) + 1 := by
    cases a with
    | nil => exact absurd rfl ha
    | cons x xs => simp
  rw [hlen]
  unfold wordBoundAt limitBound
  have hidx : (a ++ l')[a.length - 1]? = some c := by
    rw [List.getElem?_append, if_pos (by omega : a.length - 1 < a.length)]
    rw [← List.getLast?_eq_getElem? a]
    exact hc
  dsimp only
  rw [hidx]

/-- Every whole-word, case-insensitive `from`/`join` occurrence in `l` is
followed (after optional whitespace) by a double quote — the positional
reading of "each FROM/JOIN target is written as a double-quoted
identifier". -/
def QuotedFromJoinTargets (l : List Char) : Prop :=
  ∀ p, p < l.length → wordBoundAt l p = true →
    (ciPrefix fromW (l.drop p) = true ∨ ciPrefix joinW (l.drop p) = true) →
    ((l.drop (p + 4)).dropWhile isWsCh).head? = some '"'

instance (l : List Char) : Decidable (QuotedFromJoinTargets l) := by
  unfold QuotedFromJoinTargets
  infer_instance

/-- Under `QuotedFromJoinTargets`, the table pattern matches nowhere, so
the extraction scan returns no identifier. -/
theorem extractAux_nil_of_quoted (l : List Char) (hq : QuotedFromJoinTargets l) :
    ∀ (l' a : List Char) (fuel : Nat) (prevW : Bool),
      l = a ++ l' → l'.length ≤ fuel →
      (prevW = match a.getLast? with | some c => isWordCh c | none => false) →
      extractAux fuel prevW l' = [] := by
  intro l'
  induction l' with
  | nil =>
    intro a fuel prevW _ _ _
    cases fuel <;> rfl
  | cons c rest ih =>
    intro a fuel prevW hdecomp hfuel hinv
    cases fuel with
    | zero => simp at hfuel
    | succ f =>
      have hnone : tryTableMatch prevW (c :: rest) = none := by
        rcases htm : tryTableMatch prevW (c :: rest) with - | ⟨cap, after⟩
        · rfl
        · exfalso
          unfold tryTableMatch at htm
          split at htm
          · exact absurd htm (by simp)
          · rename_i hpw
            split at htm
            · rename_i hfj
              split at htm
              · exact absurd htm (by simp)
              · rename_i hws
                split at htm
                · exact absurd htm (by simp)
                · rename_i c2 cs2 hafter
                  split at htm
                  · rename_i hident
                    -- the global hypothesis contradicts the identifier start
                    have hplt : a.length < l.length := by
                      rw [hdecomp]
                      simp only [List.length_append, List.length_cons]
                      omega
                    have hbound : wordBoundAt l a.length = true := by
                      rcases hlast : a.getLast? with - | ch
                      · have ha : a = [] := by
                          cases a with
                          | nil => rfl
                          | cons x xs => simp at hlast
                        rw [hdecomp, ha]
                        exact wordBoundAt_append_nil (c :: rest)
                      · rw [hdecomp, wordBoundAt_append a (c :: rest) ch hlast]
                        rw [hlast] at hinv
                        simp only at hinv
                        simp only [Bool.not_eq_true']
                        rw [← hinv]
                        simpa using hpw
                    have hdropP : l.drop a.length = c :: rest := by
                      rw [hdecomp]
                      exact List.drop_left a (c :: rest)
                    have hdropP4 : l.drop (a.length + 4) = (c :: rest).drop 4 := by
                      rw [hdecomp, List.drop_append]
                    have hquote := hq a.length hplt hbound (by
                      rw [hdropP]
                      simpa using hfj)
                    rw [hdropP4, hafter] at hquote
                    simp only [List.head?_cons, Option.some.injEq] at hquote
                    rw [hquote] at hident
                    exact absurd hident (by decide)
                  · exact absurd htm (by simp)
            · exact absurd htm (by simp)
      rw [extractAux, hnone]
      exact ih (a ++ [c]) f (isWordCh c) (by rw [hdecomp]; simp)
        (by simpa using Nat.le_of_succ_le_succ (by simpa using hfuel)) (by simp)

/-- C9: when every FROM/JOIN target is a double-quoted identifier, the
extraction regex (whose capture must start with `[a-zA-Z_]`) matches no
identifier, and validation — the earlier checks passing — rejects with the
no-table-referenced reason, regardless of whether the unquoted name is on
the allow-list. -/
theorem C9_quoted_targets_rejected (s : String)
    (h1 : contains_forbidden s.data = none)
    (h2 : (sqlparseSplit s.data).length = 1)
    (hq : QuotedFromJoinTargets s.data) :
    extract_tables s.data = [] ∧
    (validate_sql (mkSqlState s)).2 = invalidDelta msgNoTable := by
  have hne : s.data ≠ [] := by
    intro hnil
    rw [hnil] at h1
    exact absurd h1 (by decide)
  have hext : extract_tables s.data = [] := by
    unfold extract_tables
    exact extractAux_nil_of_quoted s.data hq s.data [] s.data.length false
      (by simp) (le_refl _) (by simp)
  refine ⟨hext, ?_⟩
  unfold validate_sql mkSqlState
  dsimp only
  rw [if_neg hne, h1]
  dsimp only
  rw [if_neg (by omega : ¬ (sqlparseSplit s.data).length ≠ 1), if_pos hext]

/-- SQL whose FROM target is a double-quoted (allow-listed) name. -/
def exC9 : String := "SELECT * FROM \"customers\""

/-- C9 witness: `SELECT * FROM \"customers\"` — whose unquoted table name
is allow-listed — satisfies the hypotheses, extracts no identifier, and is
rejected with the no-table reason. -/
theorem C9_witness :
    (contains_forbidden exC9.data = none ∧ (sqlparseSplit exC9.data).length = 1 ∧
      QuotedFromJoinTargets exC9.data ∧ tCustomersLo ∈ ALLOWED_TABLES) ∧
    (extract_tables exC9.data = [] ∧
      (validate_sql (mkSqlState exC9)).2 = invalidDelta msgNoTable) :=
  ⟨⟨by decide, by decide, by decide, by decide⟩,
   C9_quoted_targets_rejected exC9 (by decide) (by decide) (by decide)⟩

/-! ## Claim C10 -/

/-- `validate_sql` on a state without a `sql` key rejects with the
no-SQL message. -/
theorem validate_sql_none (st : AgentState) (hst : st.sql = none) :
    validate_sql st = (st, invalidDelta msgNoSql) := by
  unfold validate_sql
  rw [hst]
  rfl

/-- The generator's delta either carries only an error or only a
(non-absent) `sql` value. -/
theorem gen_from_response_shape (raw : String) :
    gen_from_response raw = { emptyState with error := some msgEmptyLLM } ∨
    ∃ s : String, gen_from_response raw = { emptyState with sql := some s } := by
  unfold gen_from_response
  dsimp only
  rcases h : sqlparseSplit (pyStrip (stripFences (pyStrip raw.data))) with - | ⟨st0, sts⟩
  · left
    rfl
  · right
    dsimp only
    exact ⟨String.mk (if endsWithLimitPat (rstripSemis (pyStrip st0)) = true
      then rstripSemis (pyStrip st0)
      else rstripSemis (pyStrip st0) ++ (" LIMIT " ++ Nat.repr MAX_LIMIT).data), by
        by_cases hl : endsWithLimitPat (rstripSemis (pyStrip st0)) = true
        · rw [if_pos hl]
        · rw [if_neg hl]⟩

/-- C10: the unguarded `state["sql"]` lookup of the execution step never
fails on a graph run.  On every path that reaches `execute_sql_query`,
validation has returned `is_valid = True`, which requires a present,
non-empty `sql` in its input state; the `sql` channel is unchanged by the
validation delta, so the lookup always succeeds and no `KeyError` can
escape any run, whatever the oracles return. -/
theorem C10_missing_sql_keyerror_unreachable (q : String)
    (qdrant : Except String (List (String × String)))
    (llm : Except String LLMResp) (db : String → Except String (List Row))
    (f : String) :
    runGraph q qdrant llm db ≠ Except.error (RunExn.keyError f) := by
  intro hcontra
  unfold runGraph retrieve_schema_context at hcontra
  dsimp only at hcontra
  rcases qdrant with e | res
  · simp at hcontra
  · dsimp only at hcontra
    unfold llm_generate_sql at hcontra
    dsimp only [mergeState, updField, emptyState] at hcontra
    rcases llm with e | r
    · simp at hcontra
    · dsimp only at hcontra
      by_cases hst : r.status ≠ 200
      · rw [if_pos hst] at hcontra
        dsimp only at hcontra
        rw [validate_sql_none _ rfl] at hcontra
        dsimp only [mergeState, updField, invalidDelta, emptyState] at hcontra
        rw [if_neg (by simp : ¬ (some false = some true))] at hcontra
        simp at hcontra
      · rw [if_neg hst] at hcontra
        dsimp only at hcontra
        rcases gen_from_response_shape r.response with hg | ⟨sq, hg⟩
        · rw [hg] at hcontra
          dsimp only [mergeState, updField, emptyState] at hcontra
          rw [validate_sql_none _ rfl] at hcontra
          dsimp only [mergeState, updField, invalidDelta, emptyState] at hcontra
          rw [if_neg (by simp : ¬ (some false = some true))] at hcontra
          simp at hcontra
        · rw [hg] at hcontra
          dsimp only [mergeState, updField, emptyState] at hcontra
          rcases validate_sql_shape
              (AgentState.mk (some q) (some sq) none none none
                (some (res.map Prod.fst)) (some ((res.map Prod.snd).eraseDups)))
            with ⟨m, hm⟩ | ⟨s', hs', hne', hacc⟩
          · rw [hm] at hcontra
            dsimp only [mergeState, updField, invalidDelta, emptyState] at hcontra
            rw [if_neg (by simp : ¬ (some false = some true))] at hcontra
            simp at hcontra
          · rw [hacc] at hcontra
            dsimp only [mergeState, updField, emptyState] at hcontra
            rw [if_pos rfl] at hcontra
            unfold execute_sql_query at hcontra
            dsimp only at hcontra
            rcases hdb : db sq with e2 | rows
            · rw [hdb] at hcontra
              simp at hcontra
            · rw [hdb] at hcontra
              simp at hcontra

/-- C10 witness: the theorem applied to a concrete run (successful
retrieval, a generated over-limit query, a succeeding database). -/
theorem C10_witness :
    runGraph qC3 oracleRetr (Except.ok ⟨200, "", genC2⟩) dbOkEmpty ≠
      Except.error (RunExn.keyError sqlField) :=
  C10_missing_sql_keyerror_unreachable qC3 oracleRetr
    (Except.ok ⟨200, "", genC2⟩) dbOkEmpty sqlField
